import Mathlib

/-!
Verification development for the 3D In-Vitro Models lead-generation pipeline
(`src/identification.py`, `src/enrichment.py`, `src/ranking.py`).

The three Python modules are shallowly embedded: Python strings are `String`,
Python `in` on strings is substring containment, dictionaries with a known key
set are structures whose fields are `Option`-valued when the key can be absent
or can hold `None`, Python dicts used as ordered maps are association lists kept
in insertion order, and code that can raise returns `Except String`.
-/

/-- Python `str.lower()` (the strings in this program are ASCII). -/
def pyLower (s : String) : String := ⟨s.data.map Char.toLower⟩

/-- Prefix test on character lists, structural helper for `containsChars`. -/
def startsWithChars : List Char → List Char → Bool
  | [], _ => true
  | _ :: _, [] => false
  | p :: ps, h :: hs => p == h && startsWithChars ps hs

/-- Substring test on character lists: does `pat` occur contiguously? -/
def containsChars (pat : List Char) : List Char → Bool
  | [] => pat.isEmpty
  | h :: hs => startsWithChars pat (h :: hs) || containsChars pat hs

/-- Python `needle in hay` for strings: contiguous substring containment. -/
def pyIn (needle hay : String) : Bool := containsChars needle.data hay.data

/-- Python `str.split()` on whitespace (the names fed to it only use spaces):
splits on space runs and drops empty fragments. -/
def splitOnSpace : List Char → List (List Char)
  | [] => [[]]
  | c :: cs =>
    match splitOnSpace cs with
    | [] => [[]]
    | w :: ws => if c = ' ' then [] :: w :: ws else (c :: w) :: ws

/-- Python `s.split()` as used by `EmailFinder.find_email`. -/
def pySplit (s : String) : List String :=
  ((splitOnSpace s.data).filter (· ≠ [])).map (fun cs => ⟨cs⟩)

/-- A publication dict appended to a lead's `pubmed_papers`
(`{"title": ..., "year": ..., "pmid": ...}`). `title` is `none` when the dict
holds `None` or lacks the key — scoring reads it with
`paper.get("title", "") or ""`, which collapses those cases. `year` is read
with `paper.get("year", 0)`, for which an absent key (default 0) and a key
present holding `None` (which later raises) differ, so it is
`Option (Option Int)`: `none` = key absent, `some none` = key present with
value `None`, `some (some y)` = key present with an int. -/
structure PubRecord where
  title : Option String := none
  year : Option (Option Int) := none
  pmid : Option String := none
deriving Repr, DecidableEq

/-- `paper.get("year", 0)`: absent key gives the default 0, a present key
gives its value, which may be Python `None` (`none` here). -/
def pyGetYear (paper : PubRecord) : Option Int :=
  match paper.year with
  | none => some 0
  | some v => v

/-- The funding dict built by `FundingIntelligence.get_funding_info` and read
by `RankingEngine._score_company_intent`. A field is `none` when the key is
absent and `some none` when the key is present with value `None`, matching
Python's `dict.get(key, default)` semantics. -/
structure FundingInfo where
  recent_funding : Option (Option String) := none
  funding_stage : Option (Option String) := none
  amount : Option (Option Int) := none
  date : Option (Option String) := none
  has_budget : Option (Option Bool) := none
deriving Repr, DecidableEq

/-- `funding_info.get("funding_stage", "")`: absent key gives the default `""`,
a present key gives its value, which may be Python `None` (`none` here). -/
def pyGetFundingStage (info : FundingInfo) : Option String :=
  match info.funding_stage with
  | none => some ""
  | some v => v

/-- Truthiness of `funding_info.get("has_budget", False)`: an absent key and a
present `None` are both falsy. -/
def pyGetHasBudget (info : FundingInfo) : Bool :=
  match info.has_budget with
  | none => false
  | some none => false
  | some (some b) => b

/-- The `Lead` dataclass of `identification.py`. The dataclass itself has no
`technographic_signals` or `rank` field: both attributes are created later by
assignment (`EnrichmentEngine.enrich_lead` and `RankingEngine.rank_leads`), so
they are modelled as `Option`-valued with `none` meaning "attribute absent";
reading an absent attribute is an `AttributeError` in Python. -/
structure Lead where
  name : String
  title : String
  company : String
  location : String
  company_hq : Option String := none
  email : Option String := none
  phone : Option String := none
  linkedin_url : Option String := none
  pubmed_papers : List PubRecord := []
  conference_attendance : List String := []
  funding_info : Option FundingInfo := none
  score : Int := 0
  technographic_signals : Option (List String) := none
  rank : Option Int := none
deriving Repr, DecidableEq

namespace RankingEngine

/-- The `ScoringWeights` dataclass of `ranking.py` with its default values. -/
structure ScoringWeights where
  role_fit_high : Int := 30
  company_intent_high : Int := 20
  technographic_medium : Int := 15
  technographic_nams : Int := 10
  location_hub : Int := 10
  scientific_intent_very_high : Int := 40
deriving Repr, DecidableEq

/-- `ScoringWeights()` as built by `RankingEngine.__init__` without arguments. -/
def defaultWeights : ScoringWeights := {}

/-- `self.high_value_titles` of `RankingEngine`. -/
def high_value_titles : List String :=
  ["director", "head", "vp", "vice president", "chief", "senior", "principal", "lead"]

/-- `self.role_keywords` of `RankingEngine`. -/
def role_keywords : List String :=
  ["toxicology", "safety", "hepatic", "3d", "preclinical",
   "drug discovery", "pharmacology", "dili"]

/-- `self.scientific_keywords` of `RankingEngine`. -/
def scientific_keywords : List String :=
  ["drug-induced liver injury", "dili", "liver toxicity", "hepatic",
   "3d model", "organ-on-chip"]

/-- `RankingEngine._score_role_fit`. -/
def score_role_fit (w : ScoringWeights) (title : String) : Int :=
  if title = "" then 0
  else
    let title_lower := pyLower title
    let has_high_value_title := high_value_titles.any (fun k => pyIn k title_lower)
    let has_role_keyword := role_keywords.any (fun k => pyIn k title_lower)
    if has_high_value_title && has_role_keyword then w.role_fit_high
    else if has_role_keyword then Int.fdiv w.role_fit_high 2
    else 0

/-- The `high_value_stages` list local to `_score_company_intent`. -/
def high_value_stages : List String := ["series a", "series b", "series c", "public", "ipo"]

/-- `RankingEngine._score_company_intent`. A funding dict whose
`funding_stage` key is present with value `None` makes `.lower()` raise
`AttributeError`, hence the `Except`. -/
def score_company_intent (w : ScoringWeights) (funding_info : Option FundingInfo) :
    Except String Int :=
  match funding_info with
  | none => .ok 0
  | some info =>
    match pyGetFundingStage info with
    | none => .error "AttributeError: 'NoneType' object has no attribute 'lower'"
    | some stage =>
      let funding_stage := pyLower stage
      let has_budget := pyGetHasBudget info
      if high_value_stages.any (fun s => pyIn s funding_stage) && has_budget then
        .ok w.company_intent_high
      else if has_budget then .ok (Int.fdiv w.company_intent_high 2)
      else .ok 0

/-- The `tech_keywords` list local to `_score_technographic`. -/
def tech_keywords : List String := ["in vitro", "3d", "organ-on-chip", "spheroids"]

/-- `RankingEngine._score_technographic` (first matching signal short-circuits,
which is the same as an existence check). -/
def score_technographic (w : ScoringWeights) (technographic_signals : List String) : Int :=
  if technographic_signals.isEmpty then 0
  else if technographic_signals.any
      (fun signal => tech_keywords.any (fun k => pyIn k (pyLower signal))) then
    w.technographic_medium
  else 0

/-- `RankingEngine._score_nams`. -/
def score_nams (w : ScoringWeights) (technographic_signals : List String) : Int :=
  if technographic_signals.isEmpty then 0
  else if technographic_signals.any (fun signal => pyIn "nam" (pyLower signal)) then
    w.technographic_nams
  else 0

/-- The `hub_locations` list local to `_score_location`. -/
def hub_locations : List String :=
  ["boston", "cambridge", "bay area", "san francisco",
   "basel", "london", "oxford", "golden triangle"]

/-- `RankingEngine._score_location`; `company_hq` may be `None`
(`(company_hq or "").lower()`). -/
def score_location (w : ScoringWeights) (person_location : String)
    (company_hq : Option String) : Int :=
  let location_lower := pyLower person_location
  let hq_lower := pyLower (company_hq.getD "")
  if hub_locations.any (fun hub => pyIn hub location_lower || pyIn hub hq_lower) then
    w.location_hub
  else 0

/-- The hard-coded `current_year = 2024` of `_score_scientific_intent`. -/
def current_year : Int := 2024

/-- The `for paper in pubmed_papers` counting loop of
`_score_scientific_intent`: `paper.get("year", 0)` may yield `None` (a key
present with value `None`), which then raises `TypeError` in the
`paper_year >= current_year - 2` comparison; otherwise the paper counts when
it is recent and its title holds a scientific keyword. -/
def countRelevantPapers : List PubRecord → Except String Nat
  | [] => .ok 0
  | paper :: rest =>
    match pyGetYear paper with
    | none =>
      .error "TypeError: '>=' not supported between instances of 'NoneType' and 'int'"
    | some paper_year =>
      (countRelevantPapers rest).map (fun n =>
        if decide (paper_year ≥ current_year - 2) &&
            scientific_keywords.any (fun k => pyIn k (pyLower (paper.title.getD ""))) then
          n + 1
        else n)

/-- `RankingEngine._score_scientific_intent`. -/
def score_scientific_intent (w : ScoringWeights) (pubmed_papers : List PubRecord) :
    Except String Int :=
  if pubmed_papers.isEmpty then .ok 0
  else
    (countRelevantPapers pubmed_papers).map (fun relevant_papers =>
      if relevant_papers > 0 then w.scientific_intent_very_high else 0)

/-- `RankingEngine.calculate_score`: sums the six signals, caps at 100, writes
the capped value onto the lead's `score` field and returns it. Reading
`lead.technographic_signals` raises `AttributeError` when enrichment never set
that attribute (the dataclass does not declare it), and `_score_company_intent`
can raise on a `None`-valued funding stage, hence the `Except`. The returned
pair is (returned score, lead after the write to `lead.score`). -/
def calculate_score (w : ScoringWeights) (lead : Lead) : Except String (Int × Lead) := do
  let role_score := score_role_fit w lead.title
  let company_score ← score_company_intent w lead.funding_info
  let signals ← match lead.technographic_signals with
    | none => Except.error "AttributeError: 'Lead' object has no attribute 'technographic_signals'"
    | some s => Except.ok s
  let tech_score := score_technographic w signals
  let nams_score := score_nams w signals
  let location_score := score_location w lead.location lead.company_hq
  let scientific_score ← score_scientific_intent w lead.pubmed_papers
  let score := role_score + company_score + tech_score + nams_score
    + location_score + scientific_score
  let final := min score 100
  .ok (final, { lead with score := final })

/-- The `for lead in leads: self.calculate_score(lead)` loop of `rank_leads`:
every lead's score is recomputed and written before sorting. -/
def score_all (w : ScoringWeights) (leads : List Lead) : Except String (List Lead) :=
  leads.mapM (fun l => (calculate_score w l).map Prod.snd)

/-- The comparison of `sorted(leads, key=lambda x: x.score, reverse=True)`:
descending by score; Python's sort is stable, as is `List.mergeSort`. -/
def leadLE (a b : Lead) : Bool := decide (b.score ≤ a.score)

/-- The `for i, lead in enumerate(ranked_leads, 1): lead.rank = i` loop:
assigns 1-based ranks in sorted order (the `rank` attribute is created here). -/
def assign_ranks (leads : List Lead) : List Lead :=
  leads.enum.map (fun p => { p.2 with rank := some ((p.1 : Int) + 1) })

/-- `RankingEngine.rank_leads`. -/
def rank_leads (w : ScoringWeights) (leads : List Lead) : Except String (List Lead) := do
  let scored ← score_all w leads
  let ranked_leads := scored.mergeSort leadLE
  .ok (assign_ranks ranked_leads)

end RankingEngine

/-- A profile record as returned by `LinkedInSearcher.search_profiles`:
`name`, `title` and `company` are always present (they are indexed directly),
while `location`, `company_hq` and `linkedin_url` are read with `.get`. -/
structure Profile where
  name : String
  title : String
  company : String
  location : Option String := none
  linkedin_url : Option String := none
  company_hq : Option String := none
deriving Repr, DecidableEq

/-- A paper record as returned by `PubMedSearcher` (`pmid`, `title`,
`authors`, `year`, `journal`); every key is read with `.get`, and `authors`
defaults to the empty list. -/
structure Paper where
  pmid : Option String := none
  title : Option String := none
  authors : List String := []
  year : Option Int := none
  journal : Option String := none
deriving Repr, DecidableEq

/-- An attendee record as returned by `ConferenceSearcher.search_attendees`;
the coordinator reads `name`, `title` and `company` (the `presentation` and
`conference` entries are never read by it). -/
structure Attendee where
  name : String
  title : String
  company : String
deriving Repr, DecidableEq

/-- An author record as built by
`PubMedSearcher.extract_authors_from_papers`. -/
structure AuthorRec where
  name : String
  paper_title : Option String := none
  year : Option Int := none
  pmid : Option String := none
deriving Repr, DecidableEq

namespace LinkedInSearcher

/-- The hard-coded `mock_profiles` of `LinkedInSearcher.search_profiles`. -/
def mock_profiles : List Profile :=
  [{ name := "Dr. Sarah Johnson", title := "Director of Toxicology",
     company := "Pfizer Inc", location := some "Cambridge, MA",
     linkedin_url := some "https://linkedin.com/in/sarah-johnson",
     company_hq := some "New York, NY" },
   { name := "Dr. Michael Chen", title := "Head of Preclinical Safety",
     company := "Moderna Therapeutics", location := some "Boston, MA",
     linkedin_url := some "https://linkedin.com/in/michael-chen",
     company_hq := some "Cambridge, MA" },
   { name := "Dr. Emily Rodriguez", title := "VP Preclinical Development",
     company := "Biogen", location := some "San Francisco, CA",
     linkedin_url := some "https://linkedin.com/in/emily-rodriguez",
     company_hq := some "Cambridge, MA" }]

/-- `LinkedInSearcher.search_profiles`: filters the mock profiles by a
case-insensitive substring match of any requested job title, then truncates. -/
def search_profiles (job_titles : List String) (limit : Nat) : List Profile :=
  (mock_profiles.filter
    (fun p => job_titles.any (fun t => pyIn (pyLower t) (pyLower p.title)))).take limit

end LinkedInSearcher

namespace PubMedSearcher

/-- The outcome of the HTTP call made by `PubMedSearcher.search_papers`
(`requests.get` on the esearch endpoint followed by per-pmid fetches):
either the call raises (network error, timeout), or a response with the given
status arrives and the rest of the `try` block parses `papers` from it. -/
inductive HttpOutcome where
  | exception
  | response (status : Nat) (papers : List Paper)
deriving Repr, DecidableEq

/-- `PubMedSearcher._get_mock_papers`, the canned fallback set. -/
def mock_papers : List Paper :=
  [{ pmid := some "12345678",
     title := some "Drug-Induced Liver Injury: A Comprehensive Review",
     authors := ["Dr. Sarah Johnson", "Dr. John Smith"],
     year := some 2024,
     journal := some "Toxicology and Applied Pharmacology" },
   { pmid := some "12345679",
     title := some "3D In-Vitro Models for Hepatic Toxicity Assessment",
     authors := ["Dr. Michael Chen", "Dr. Lisa Wang"],
     year := some 2023,
     journal := some "Biomaterials" }]

/-- `PubMedSearcher.search_papers`: an exception is caught and replaced by the
mock papers; a 200 response returns the parsed papers; on any other status the
`if response.status_code == 200` guard fails, the `try` block falls through,
and the function implicitly returns Python `None` (`none` here). -/
def search_papers (outcome : HttpOutcome) : Option (List Paper) :=
  match outcome with
  | .exception => some mock_papers
  | .response status papers => if status == 200 then some papers else none

/-- `PubMedSearcher.extract_authors_from_papers`. Its `for paper in papers`
loop raises `TypeError` when `search_papers` returned `None`. -/
def extract_authors_from_papers (papers : Option (List Paper)) :
    Except String (List AuthorRec) :=
  match papers with
  | none => .error "TypeError: 'NoneType' object is not iterable"
  | some ps => .ok (ps.flatMap (fun paper => paper.authors.map (fun author =>
      { name := author, paper_title := paper.title,
        year := paper.year, pmid := paper.pmid })))

end PubMedSearcher

namespace ConferenceSearcher

/-- The hard-coded `mock_attendees` returned by
`ConferenceSearcher.search_attendees` for every conference. -/
def mock_attendees : List Attendee :=
  [{ name := "Dr. Sarah Johnson", title := "Director of Toxicology",
     company := "Pfizer Inc" },
   { name := "Dr. Emily Rodriguez", title := "VP Preclinical Development",
     company := "Biogen" }]

end ConferenceSearcher

namespace IdentificationEngine

/-- `leads_dict`: a Python dict in insertion order, keys mapping to leads. -/
abbrev LeadsDict := List (String × Lead)

/-- `leads_dict[key] = value`: replaces in place when the key exists,
otherwise appends (Python dict assignment semantics). -/
def dictInsert (d : LeadsDict) (key : String) (value : Lead) : LeadsDict :=
  if d.any (fun e => e.1 == key) then
    d.map (fun e => if e.1 == key then (e.1, value) else e)
  else d ++ [(key, value)]

/-- The lead built from a profile record in step 1 of `identify_leads`. -/
def profileLead (p : Profile) : Lead :=
  { name := p.name, title := p.title, company := p.company,
    location := p.location.getD "", company_hq := p.company_hq,
    linkedin_url := p.linkedin_url }

/-- One iteration of the `for profile in linkedin_profiles` loop:
`leads_dict[f"{name}_{company}"] = Lead(...)`. Note the key keeps the
original casing. -/
def addProfile (d : LeadsDict) (p : Profile) : LeadsDict :=
  dictInsert d (p.name ++ "_" ++ p.company) (profileLead p)

/-- The author-to-candidate match of step 2: a case-insensitive bidirectional
substring containment between the author name and the candidate name. -/
def matchesAuthor (author_name : String) (lead : Lead) : Bool :=
  pyIn (pyLower author_name) (pyLower lead.name) ||
  pyIn (pyLower lead.name) (pyLower author_name)

/-- The publication dict appended to a matching candidate's evidence. -/
def authorPub (a : AuthorRec) : PubRecord :=
  { title := a.paper_title, year := some a.year, pmid := a.pmid }

/-- The `for key, lead in leads_dict.items()` scan of step 2: appends the
publication to the first candidate matching the author (then breaks); the
returned flag is `matched`. -/
def appendPaperFirstMatch (author_name : String) (pub : PubRecord) :
    LeadsDict → LeadsDict × Bool
  | [] => ([], false)
  | (key, lead) :: rest =>
    if matchesAuthor author_name lead then
      ((key, { lead with pubmed_papers := lead.pubmed_papers ++ [pub] }) :: rest, true)
    else
      let r := appendPaperFirstMatch author_name pub rest
      ((key, lead) :: r.1, r.2)

/-- The new candidate created for an unmatched publication author. -/
def researcherLead (a : AuthorRec) : Lead :=
  { name := a.name, title := "Researcher", company := "Unknown",
    location := "", pubmed_papers := [authorPub a] }

/-- One iteration of the `for author_info in authors` loop of step 2. -/
def processAuthor (d : LeadsDict) (a : AuthorRec) : LeadsDict :=
  let r := appendPaperFirstMatch a.name (authorPub a) d
  if r.2 then r.1
  else dictInsert r.1 (a.name ++ "_Unknown") (researcherLead a)

/-- The new candidate created for a conference attendee with no exact key
match. -/
def attendeeLead (att : Attendee) (conf : String) : Lead :=
  { name := att.name, title := att.title, company := att.company,
    location := "", conference_attendance := [conf] }

/-- One iteration of the `for attendee in attendees` loop of step 3: an exact
(case-sensitive) key match appends the conference name to that candidate,
otherwise a new candidate is created. -/
def addAttendee (conf : String) (d : LeadsDict) (att : Attendee) : LeadsDict :=
  let key := att.name ++ "_" ++ att.company
  if d.any (fun e => e.1 == key) then
    d.map (fun e =>
      if e.1 == key then
        (e.1, { e.2 with conference_attendance := e.2.conference_attendance ++ [conf] })
      else e)
  else d ++ [(key, attendeeLead att conf)]

/-- The fixed conference list of step 3. -/
def conference_names : List String := ["SOT", "AACR", "ISSX", "ACT"]

/-- `IdentificationEngine.identify_leads`, the coordinator. The source
adapters are replaceable data providers, so the coordinator is embedded as a
function of their outputs: `profiles` is what the profile-search adapter
returned, `outcome` is the HTTP outcome of the publication search (step 2 runs
only when `keywords` is non-empty, and expands the keyword list only to build
the query string, which does not affect the outcome parameter), and
`attendees` maps each conference name to the attendee-search result (the mock
adapter returns the same list for every conference). -/
def identify_leads (profiles : List Profile) (keywords : List String)
    (outcome : PubMedSearcher.HttpOutcome) (attendees : String → List Attendee)
    (max_results : Nat) : Except String (List Lead) := do
  let d0 : LeadsDict := profiles.foldl addProfile []
  let d1 ← if keywords.isEmpty then pure d0 else do
    let papers := PubMedSearcher.search_papers outcome
    let authors ← PubMedSearcher.extract_authors_from_papers papers
    pure (authors.foldl processAuthor d0)
  let d2 := conference_names.foldl
    (fun d conf => (attendees conf).foldl (addAttendee conf) d) d1
  .ok ((d2.map Prod.snd).take max_results)

end IdentificationEngine

namespace EmailFinder

/-- The `domain_map` of `EmailFinder._extract_domain`, in insertion order. -/
def domain_map : List (String × String) :=
  [("pfizer", "pfizer.com"), ("moderna", "modernatx.com"), ("biogen", "biogen.com"),
   ("gilead", "gilead.com"), ("regeneron", "regeneron.com"), ("vertex", "vrtx.com"),
   ("amgen", "amgen.com"), ("bristol myers squibb", "bms.com"), ("merck", "merck.com"),
   ("novartis", "novartis.com"), ("roche", "roche.com")]

/-- The generic-pattern fallback of `_extract_domain`:
`re.sub(r'[^a-z0-9]', '', company_lower) + ".com"`. -/
def companySlug (company_lower : String) : String :=
  ⟨company_lower.data.filter (fun c =>
    (('a' ≤ c && c ≤ 'z') || ('0' ≤ c && c ≤ '9')))⟩

/-- `EmailFinder._extract_domain`: first substring match in the domain map,
else the slugified company plus ".com" (never `None` in this code: the
fallback always produces a string). -/
def extract_domain (company : String) : Option String :=
  let company_lower := pyLower company
  match domain_map.find? (fun e => pyIn e.1 company_lower) with
  | some e => some e.2
  | none => some (companySlug company_lower ++ ".com")

/-- `EmailFinder.find_email` (called without an explicit domain): derives
`first.last@domain` from the lowercased name when it has at least two parts. -/
def find_email (name : String) (company : String) : Option String :=
  match extract_domain company with
  | none => none
  | some domain =>
    let name_parts := pySplit (pyLower name)
    if 2 ≤ name_parts.length then
      match name_parts.head?, name_parts.getLast? with
      | some first_name, some last_name => some (first_name ++ "." ++ last_name ++ "@" ++ domain)
      | _, _ => none
    else none

end EmailFinder

namespace LocationEnricher

/-- `self.hub_locations` of `LocationEnricher`. -/
def hub_locations : List String :=
  ["boston", "cambridge", "bay area", "san francisco", "san jose",
   "basel", "london", "oxford", "cambridge uk", "golden triangle"]

/-- The `hq_map` of `LocationEnricher._get_company_hq`, in insertion order. -/
def hq_map : List (String × String) :=
  [("pfizer", "New York, NY"), ("moderna", "Cambridge, MA"), ("biogen", "Cambridge, MA"),
   ("gilead", "Foster City, CA"), ("regeneron", "Tarrytown, NY"), ("vertex", "Boston, MA"),
   ("amgen", "Thousand Oaks, CA"), ("bristol myers squibb", "New York, NY"),
   ("merck", "Kenilworth, NJ"), ("novartis", "Basel, Switzerland"),
   ("roche", "Basel, Switzerland")]

/-- `LocationEnricher._get_company_hq`: first substring match wins, default
"Unknown". -/
def get_company_hq (company : String) : String :=
  match hq_map.find? (fun e => pyIn e.1 (pyLower company)) with
  | some e => e.2
  | none => "Unknown"

/-- The dict returned by `LocationEnricher.enrich_location`. -/
structure LocationData where
  person_location : String
  company_hq : String
  is_hub : Bool
  is_remote : Bool
deriving Repr, DecidableEq

/-- `LocationEnricher.enrich_location`. -/
def enrich_location (person_location : String) (company : String) : LocationData :=
  let company_hq := get_company_hq company
  { person_location := person_location,
    company_hq := company_hq,
    is_hub := hub_locations.any (fun hub => pyIn hub (pyLower person_location)),
    is_remote := person_location ≠ company_hq && person_location ≠ "" }

end LocationEnricher

namespace FundingIntelligence

/-- The `funding_mock_data` of `FundingIntelligence.get_funding_info`. -/
def funding_mock_data : List (String × FundingInfo) :=
  [("moderna",
    { recent_funding := some (some "Series B - $50M (2024)"),
      funding_stage := some (some "Series B"),
      amount := some (some 50000000),
      date := some (some "2024-01-15"),
      has_budget := some (some true) }),
   ("biogen",
    { recent_funding := some (some "IPO - Public Company"),
      funding_stage := some (some "Public"),
      amount := some none,
      date := some none,
      has_budget := some (some true) })]

/-- The default descriptor for unmatched organizations. -/
def default_funding : FundingInfo :=
  { recent_funding := some none,
    funding_stage := some (some "Unknown"),
    amount := some none,
    date := some none,
    has_budget := some (some false) }

/-- `FundingIntelligence.get_funding_info`: first substring match wins,
else the default descriptor. -/
def get_funding_info (company : String) : FundingInfo :=
  match funding_mock_data.find? (fun e => pyIn e.1 (pyLower company)) with
  | some e => e.2
  | none => default_funding

end FundingIntelligence

namespace TechnographicEnricher

/-- `TechnographicEnricher.check_technographics`. -/
def check_technographics (company : String) : List String :=
  if pyIn "moderna" (pyLower company) || pyIn "biogen" (pyLower company) then
    ["Uses in vitro models", "Open to NAMs"]
  else []

end TechnographicEnricher

namespace EnrichmentEngine

/-- One sub-enricher of `enrich_lead`: applies its field writes to the lead,
or raises. The four concrete sub-enrichers below never raise (they are static
lookups), but each is an independently swappable collaborator that may (per
the error-handling design) raise for a specific candidate, so the coordinator
is embedded over an arbitrary step list with these four as the default. -/
abbrev Step := Lead → Except String Lead

/-- Step 1 of `enrich_lead`: `if not lead.email: lead.email = find_email(...)`
(an empty-string email is falsy and is replaced too). -/
def email_step : Step := fun lead =>
  if lead.email.getD "" = "" then
    .ok { lead with email := EmailFinder.find_email lead.name lead.company }
  else .ok lead

/-- Steps of `enrich_lead` that write the location data: overwrites
`company_hq` with the lookup result and re-assigns `location` from
`location_data["person_location"]` (the unchanged input value). -/
def apply_location (lead : Lead) : Lead :=
  let location_data := LocationEnricher.enrich_location lead.location lead.company
  { lead with company_hq := some location_data.company_hq,
              location := location_data.person_location }

/-- Step 2 of `enrich_lead` as a `Step`. -/
def location_step : Step := fun lead => .ok (apply_location lead)

/-- Step 3 of `enrich_lead`: `lead.funding_info = get_funding_info(...)`. -/
def funding_step : Step := fun lead =>
  .ok { lead with funding_info := some (FundingIntelligence.get_funding_info lead.company) }

/-- Step 4 of `enrich_lead`: creates the `technographic_signals` attribute. -/
def technographic_step : Step := fun lead =>
  .ok { lead with
        technographic_signals := some (TechnographicEnricher.check_technographics lead.company) }

/-- The fixed sub-enricher order of `enrich_lead`:
contact, location, funding, technographic. -/
def default_steps : List Step :=
  [email_step, location_step, funding_step, technographic_step]

/-- Sequencing of sub-enrichers with Python exception semantics: a raise
aborts the remaining steps, and the lead keeps the mutations of the steps
already completed (each sub-enricher's field write happens only after its
call returns). Returns the lead's final state and the uncaught error, if
any. -/
def runSteps : List Step → Lead → Lead × Option String
  | [], lead => (lead, none)
  | f :: fs, lead =>
    match f lead with
    | .ok lead1 => runSteps fs lead1
    | .error e => (lead, some e)

/-- `EnrichmentEngine.enrich_lead` over a given step list. -/
def enrich_lead_with (steps : List Step) (lead : Lead) : Lead × Option String :=
  runSteps steps lead

/-- `EnrichmentEngine.enrich_lead` with the concrete sub-enrichers. -/
def enrich_lead (lead : Lead) : Lead × Option String :=
  enrich_lead_with default_steps lead

/-- `EnrichmentEngine.enrich_leads`: the per-lead `try/except` keeps every
lead with whatever fields were already set and continues with the rest; the
error itself is only logged, so the batch function is total. -/
def enrich_leads_with (steps : List Step) (leads : List Lead) : List Lead :=
  leads.map (fun lead => (enrich_lead_with steps lead).1)

/-- `EnrichmentEngine.enrich_leads` with the concrete sub-enrichers. -/
def enrich_leads (leads : List Lead) : List Lead :=
  enrich_leads_with default_steps leads

end EnrichmentEngine

/-! ### Concrete pipeline inputs used by the witnesses and counterexamples -/

/-- The scoring example candidate of the specification: seniority and
domain-role title, Series B funding with budget, both technographic signals,
hub location, one recent relevant publication. -/
def directorLead : Lead :=
  { name := "Dr. Sarah Johnson", title := "Director of Toxicology",
    company := "Pfizer Inc", location := "Cambridge, MA",
    funding_info := some { funding_stage := some (some "Series B"),
                           has_budget := some (some true) },
    technographic_signals := some ["Uses in vitro models", "Open to NAMs"],
    pubmed_papers := [{ title := some "3D In-Vitro Models for Hepatic Toxicity Assessment",
                        year := some (some 2023), pmid := some "12345679" }] }

/-- The zero-signal example candidate: no matching keyword anywhere. -/
def juniorLead : Lead :=
  { name := "Alex Doe", title := "Junior Scientist", company := "Acme Bio",
    location := "Unknown", technographic_signals := some [] }

/-- A candidate whose funding dict has `funding_stage` present with value
`None`: `funding_info.get("funding_stage", "").lower()` then raises. -/
def noneStageLead : Lead :=
  { name := "N. None", title := "", company := "NoneCo", location := "",
    funding_info := some { funding_stage := some none },
    technographic_signals := some [] }

/-- An adapter function returning no conference attendees. -/
def emptyAttendees : String → List Attendee := fun _ => []

/-- The conference adapter of the repository: the same mock attendee list for
every conference. -/
def mockAttendeesFn : String → List Attendee := fun _ => ConferenceSearcher.mock_attendees

/-- A profile-search record (same person and organization as
`caseAttendee`, cased as in the mock data). -/
def caseProfile : Profile :=
  { name := "Dr. Sarah Johnson", title := "Director of Toxicology",
    company := "Pfizer Inc" }

/-- A conference-attendee record equal to `caseProfile` up to letter case. -/
def caseAttendee : Attendee :=
  { name := "DR. SARAH JOHNSON", title := "DIRECTOR OF TOXICOLOGY",
    company := "PFIZER INC" }

/-- Attendee-search output delivering `caseAttendee` at SOT only. -/
def caseAttendees : String → List Attendee :=
  fun conf => if conf = "SOT" then [caseAttendee] else []

/-- Forgetting the `rank` attribute, used to compare ranked output with the
scored input (ranking rewrites only `rank`). -/
def stripRank (lead : Lead) : Lead := { lead with rank := none }

/-- A candidate whose recomputed score is 90 (30 role + 20 funding + 40
publications). -/
def leadA90 : Lead :=
  { name := "A. First", title := "Director of Toxicology", company := "XBio",
    location := "",
    funding_info := some { funding_stage := some (some "Series B"),
                           has_budget := some (some true) },
    technographic_signals := some [],
    pubmed_papers := [{ title := some "hepatic spheroid study", year := some (some 2024) }] }

/-- A second candidate with score 90, after `leadA90` in input order. -/
def leadB90 : Lead := { leadA90 with name := "B. Second" }

/-- A candidate whose recomputed score is 70 (30 role + 40 publications). -/
def leadC70 : Lead :=
  { name := "C. Third", title := "Director of Toxicology", company := "YBio",
    location := "", funding_info := none, technographic_signals := some [],
    pubmed_papers := [{ title := some "hepatic spheroid study", year := some (some 2024) }] }

/-- The ranking example input, scores [90, 90, 70] in order [A, B, C]. -/
def rankInput : List Lead := [leadA90, leadB90, leadC70]

/-- `rankInput` after the scoring pass of `rank_leads`. -/
def rankScored : List Lead :=
  [{ leadA90 with score := 90 }, { leadB90 with score := 90 }, { leadC70 with score := 70 }]

/-- A funding sub-enricher that raises, standing for a Crunchbase/PitchBook
call failing for one candidate. -/
def failingFundingStep : EnrichmentEngine.Step := fun _ => .error "Crunchbase timeout"

/-- The sub-enrichers that run before the funding step: contact and location. -/
def preSteps : List EnrichmentEngine.Step :=
  [EnrichmentEngine.email_step, EnrichmentEngine.location_step]

/-- The sub-enricher that runs after the funding step. -/
def postSteps : List EnrichmentEngine.Step := [EnrichmentEngine.technographic_step]

/-- An identification-stage lead entering enrichment. -/
def rawSarah : Lead :=
  { name := "Dr. Sarah Johnson", title := "Director of Toxicology",
    company := "Pfizer Inc", location := "Cambridge, MA" }

/-- A second identification-stage lead in the same batch. -/
def rawChen : Lead :=
  { name := "Dr. Michael Chen", title := "Head of Preclinical Safety",
    company := "Moderna Therapeutics", location := "Boston, MA" }

/-- `rawSarah` after the contact and location sub-enrichers ran. -/
def sarahAfterPre : Lead := (EnrichmentEngine.runSteps preSteps rawSarah).1

/-! ### C6: the two concrete scoring examples -/

/-- **C6.** The "Director of Toxicology" candidate gets component scores
30 + 20 + 15 + 10 + 10 + 40 = 125, which `calculate_score` caps to 100 and
writes back; the "Junior Scientist" candidate scores 0 on every component. -/
theorem scoring_examples_extremes :
    RankingEngine.score_role_fit RankingEngine.defaultWeights directorLead.title = 30 ∧
    RankingEngine.score_company_intent RankingEngine.defaultWeights directorLead.funding_info
      = .ok 20 ∧
    RankingEngine.score_technographic RankingEngine.defaultWeights
      ["Uses in vitro models", "Open to NAMs"] = 15 ∧
    RankingEngine.score_nams RankingEngine.defaultWeights
      ["Uses in vitro models", "Open to NAMs"] = 10 ∧
    RankingEngine.score_location RankingEngine.defaultWeights directorLead.location
      directorLead.company_hq = 10 ∧
    RankingEngine.score_scientific_intent RankingEngine.defaultWeights
      directorLead.pubmed_papers = .ok 40 ∧
    min (30 + 20 + 15 + 10 + 10 + 40 : Int) 100 = 100 ∧
    RankingEngine.calculate_score RankingEngine.defaultWeights directorLead
      = .ok (100, { directorLead with score := 100 }) ∧
    RankingEngine.calculate_score RankingEngine.defaultWeights juniorLead
      = .ok (0, { juniorLead with score := 0 }) := by
  refine ⟨by decide, by rfl, by decide, by decide, by decide, by rfl, by decide, by rfl, by rfl⟩

/-! ### C10: idempotence of the location enricher -/

/-- **C10.** Applying the Location Enricher twice yields the same lead state
as applying it once — in particular the same headquarters value, since the
lookup depends only on the organization name, which the enricher never
changes — and each application leaves the person-location value unchanged. -/
theorem location_enricher_idempotent (lead : Lead) :
    EnrichmentEngine.apply_location (EnrichmentEngine.apply_location lead)
      = EnrichmentEngine.apply_location lead ∧
    (EnrichmentEngine.apply_location lead).location = lead.location := by
  exact ⟨rfl, rfl⟩

/-! ### C2 counterexample: the dedup key keeps the original casing -/

/-- The candidate created from `caseProfile` in step 1. -/
def caseProfileLead : Lead := IdentificationEngine.profileLead caseProfile

/-- The candidate created from `caseAttendee` in step 3. -/
def caseAttendeeLead : Lead := IdentificationEngine.attendeeLead caseAttendee "SOT"

/-- **C2, counterexample.** A profile-search record and a conference-attendee
record whose names and organizations are equal up to letter case do NOT merge:
`identify_leads` builds its keys as `f"{name}_{company}"` with the original
casing, so the run produces two distinct candidates with the same
case-insensitive identity. -/
theorem dedup_key_case_sensitive_cex :
    IdentificationEngine.identify_leads [caseProfile] []
        (.response 200 []) caseAttendees 500
      = .ok [caseProfileLead, caseAttendeeLead] ∧
    pyLower caseProfileLead.name = pyLower caseAttendeeLead.name ∧
    pyLower caseProfileLead.company = pyLower caseAttendeeLead.company ∧
    caseProfileLead ≠ caseAttendeeLead := by
  refine ⟨by rfl, by decide, by decide, by decide⟩

/-! ### C3 counterexample: a None-valued funding stage raises -/

/-- **C3, counterexample.** A funding dict whose `funding_stage` entry is
present with value `None` does not contribute 0: `calculate_score` raises
`AttributeError` on `.lower()`. -/
theorem none_funding_stage_raises_cex :
    RankingEngine.calculate_score RankingEngine.defaultWeights noneStageLead
      = .error "AttributeError: 'NoneType' object has no attribute 'lower'" := by
  rfl

/-! ### C4 counterexample: a non-200 publication-search response propagates -/

/-- **C4, counterexample.** When the publication search returns a non-200
status, `search_papers` falls out of its `try` block and returns `None`
(no exception was raised, so no fallback happens), and `identify_leads` then
raises `TypeError` iterating over it: the exception propagates to the
caller. -/
theorem non200_propagates_typeerror_cex :
    IdentificationEngine.identify_leads [] ["dili"] (.response 404 [])
        emptyAttendees 500
      = .error "TypeError: 'NoneType' object is not iterable" := by
  rfl

/-! ### C1: the computed score is an integer in [0, 100] -/

theorem role_fit_bounds (t : String) :
    0 ≤ RankingEngine.score_role_fit RankingEngine.defaultWeights t ∧
    RankingEngine.score_role_fit RankingEngine.defaultWeights t ≤ 30 := by
  simp only [RankingEngine.score_role_fit]
  split_ifs <;> exact ⟨by decide, by decide⟩

theorem company_intent_bounds (fi : Option FundingInfo) (v : Int)
    (h : RankingEngine.score_company_intent RankingEngine.defaultWeights fi = .ok v) :
    0 ≤ v ∧ v ≤ 20 := by
  unfold RankingEngine.score_company_intent at h
  rcases fi with _ | info
  · simp only [Except.ok.injEq] at h
    omega
  · dsimp only at h
    rcases hs : pyGetFundingStage info with _ | stage
    · rw [hs] at h
      simp at h
    · rw [hs] at h
      dsimp only at h
      split_ifs at h <;> simp only [Except.ok.injEq] at h <;>
        rw [← h] <;> exact ⟨by decide, by decide⟩

theorem technographic_bounds (sigs : List String) :
    0 ≤ RankingEngine.score_technographic RankingEngine.defaultWeights sigs ∧
    RankingEngine.score_technographic RankingEngine.defaultWeights sigs ≤ 15 := by
  simp only [RankingEngine.score_technographic]
  split_ifs <;> exact ⟨by decide, by decide⟩

theorem nams_bounds (sigs : List String) :
    0 ≤ RankingEngine.score_nams RankingEngine.defaultWeights sigs ∧
    RankingEngine.score_nams RankingEngine.defaultWeights sigs ≤ 10 := by
  simp only [RankingEngine.score_nams]
  split_ifs <;> exact ⟨by decide, by decide⟩

theorem location_bounds (loc : String) (hq : Option String) :
    0 ≤ RankingEngine.score_location RankingEngine.defaultWeights loc hq ∧
    RankingEngine.score_location RankingEngine.defaultWeights loc hq ≤ 10 := by
  simp only [RankingEngine.score_location]
  split_ifs <;> exact ⟨by decide, by decide⟩

theorem scientific_bounds (papers : List PubRecord) (v : Int)
    (h : RankingEngine.score_scientific_intent RankingEngine.defaultWeights papers
      = .ok v) :
    0 ≤ v ∧ v ≤ 40 := by
  unfold RankingEngine.score_scientific_intent at h
  split_ifs at h
  · simp only [Except.ok.injEq] at h
    omega
  · rcases hc : RankingEngine.countRelevantPapers papers with e | n
    · rw [hc] at h
      simp [Except.map] at h
    · rw [hc] at h
      simp only [Except.map, Except.ok.injEq] at h
      rw [← h]
      split_ifs <;> exact ⟨by decide, by decide⟩

/-- **C1.** Whenever `calculate_score` (with the default weights) returns for
a candidate, the returned value is between 0 and 100 and is exactly the value
written onto the candidate's `score` field. -/
theorem calculate_score_in_range (lead : Lead) (s : Int) (lead1 : Lead)
    (h : RankingEngine.calculate_score RankingEngine.defaultWeights lead = .ok (s, lead1)) :
    0 ≤ s ∧ s ≤ 100 ∧ lead1.score = s := by
  unfold RankingEngine.calculate_score at h
  rcases hc : RankingEngine.score_company_intent RankingEngine.defaultWeights
      lead.funding_info with e | v
  · rw [hc] at h
    simp [Bind.bind, Except.bind] at h
  · rw [hc] at h
    rcases ht : lead.technographic_signals with _ | sigs
    · rw [ht] at h
      simp [Bind.bind, Except.bind] at h
    · rw [ht] at h
      rcases hsci : RankingEngine.score_scientific_intent RankingEngine.defaultWeights
          lead.pubmed_papers with e | v6
      · rw [hsci] at h
        simp [Bind.bind, Except.bind] at h
      · rw [hsci] at h
        simp only [Bind.bind, Except.bind, Except.ok.injEq, Prod.mk.injEq] at h
        obtain ⟨hs, hlead⟩ := h
        have h1 := role_fit_bounds lead.title
        have h2 := company_intent_bounds lead.funding_info v hc
        have h3 := technographic_bounds sigs
        have h4 := nams_bounds sigs
        have h5 := location_bounds lead.location lead.company_hq
        have h6 := scientific_bounds lead.pubmed_papers v6 hsci
        refine ⟨?_, ?_, ?_⟩
        · rw [← hs]; omega
        · rw [← hs]; omega
        · rw [← hlead]; rw [hs]

/-- Witness for C1: the range theorem applied to the concrete director
candidate, whose score computes to exactly 100. -/
theorem calculate_score_in_range_witness :
    (0 : Int) ≤ 100 ∧ (100 : Int) ≤ 100 ∧
    ({ directorLead with score := 100 } : Lead).score = 100 :=
  calculate_score_in_range directorLead 100 { directorLead with score := 100 } (by rfl)

/-! ### C3, amended: missing or empty fields contribute 0 and never raise,
except a funding dict whose `funding_stage` entry holds `None` -/

/-- The paper-counting loop of `_score_scientific_intent` completes whenever
no publication dict holds `year = None` (an absent year key defaults to 0). -/
theorem countRelevantPapers_ok : ∀ (papers : List PubRecord),
    (∀ p ∈ papers, p.year ≠ some none) →
    ∃ n, RankingEngine.countRelevantPapers papers = .ok n := by
  intro papers
  induction papers with
  | nil => intro _; exact ⟨0, rfl⟩
  | cons paper rest ih =>
    intro hall
    have hy : ∃ y, pyGetYear paper = some y := by
      unfold pyGetYear
      rcases hpy : paper.year with _ | v
      · exact ⟨0, rfl⟩
      · rcases v with _ | y
        · exact absurd hpy (hall paper (List.mem_cons_self _ _))
        · exact ⟨y, rfl⟩
    obtain ⟨y, hy⟩ := hy
    obtain ⟨n, hn⟩ := ih (fun p hp => hall p (List.mem_cons_of_mem _ hp))
    refine ⟨(if (decide (y ≥ RankingEngine.current_year - 2) &&
        RankingEngine.scientific_keywords.any
          (fun k => pyIn k (pyLower (paper.title.getD "")))) = true then n + 1 else n), ?_⟩
    unfold RankingEngine.countRelevantPapers
    rw [hy, hn]
    rfl

/-- **C3, amended.** Every missing or empty field listed by the claim
contributes 0 to its signal, and `calculate_score` succeeds on every lead
whose `technographic_signals` attribute exists, whose funding dict does not
carry `funding_stage = None`, and none of whose publication dicts carries
`year = None`. Those two present-`None` cases raise: `AttributeError` on
`.lower()` (the counterexample) and `TypeError` on the
`paper_year >= current_year - 2` comparison (the final conjunct); `dict.get`
substitutes its default only for an absent key. -/
theorem missing_fields_contribute_zero :
    (∀ lead : Lead, lead.technographic_signals ≠ none →
      (∀ fi, lead.funding_info = some fi → fi.funding_stage ≠ some none) →
      (∀ p ∈ lead.pubmed_papers, p.year ≠ some none) →
      ∃ s lead1,
        RankingEngine.calculate_score RankingEngine.defaultWeights lead = .ok (s, lead1)) ∧
    RankingEngine.score_role_fit RankingEngine.defaultWeights "" = 0 ∧
    RankingEngine.score_company_intent RankingEngine.defaultWeights none = .ok 0 ∧
    RankingEngine.score_company_intent RankingEngine.defaultWeights
      (some { funding_stage := none, has_budget := none }) = .ok 0 ∧
    RankingEngine.score_company_intent RankingEngine.defaultWeights
      (some { has_budget := some none }) = .ok 0 ∧
    RankingEngine.score_technographic RankingEngine.defaultWeights [] = 0 ∧
    RankingEngine.score_nams RankingEngine.defaultWeights [] = 0 ∧
    RankingEngine.score_location RankingEngine.defaultWeights "" none = 0 ∧
    RankingEngine.score_scientific_intent RankingEngine.defaultWeights [] = .ok 0 ∧
    RankingEngine.score_scientific_intent RankingEngine.defaultWeights
      [{ title := none, year := none, pmid := none }] = .ok 0 ∧
    RankingEngine.score_scientific_intent RankingEngine.defaultWeights
      [{ title := none, year := some none, pmid := none }]
      = .error "TypeError: \x27>=\x27 not supported between instances of \x27NoneType\x27 and \x27int\x27" := by
  refine ⟨?_, by decide, by rfl, by rfl, by rfl, by decide, by decide, by decide,
    by rfl, by rfl, by rfl⟩
  intro lead h1 h2 h3
  obtain ⟨sigs, hsig⟩ := Option.ne_none_iff_exists'.mp h1
  have hco : ∃ v, RankingEngine.score_company_intent RankingEngine.defaultWeights
      lead.funding_info = .ok v := by
    unfold RankingEngine.score_company_intent
    rcases hfi : lead.funding_info with _ | fi
    · exact ⟨0, rfl⟩
    · dsimp only
      rcases hstage : pyGetFundingStage fi with _ | stage
      · exfalso
        have hne := h2 fi hfi
        unfold pyGetFundingStage at hstage
        rcases hfs : fi.funding_stage with _ | v
        · rw [hfs] at hstage
          simp at hstage
        · rw [hfs] at hstage
          cases v with
          | none => exact hne hfs
          | some s => simp at hstage
      · dsimp only
        split_ifs <;> exact ⟨_, rfl⟩
  obtain ⟨v, hv⟩ := hco
  have hsci : ∃ v2, RankingEngine.score_scientific_intent RankingEngine.defaultWeights
      lead.pubmed_papers = .ok v2 := by
    unfold RankingEngine.score_scientific_intent
    split_ifs
    · exact ⟨0, rfl⟩
    · obtain ⟨n, hn⟩ := countRelevantPapers_ok lead.pubmed_papers h3
      rw [hn]
      exact ⟨_, rfl⟩
  obtain ⟨v2, hv2⟩ := hsci
  unfold RankingEngine.calculate_score
  rw [hv, hsig, hv2]
  exact ⟨_, _, rfl⟩

/-! ### C4, amended: adapter exceptions fall back to the canned set -/

/-- **C4, amended.** When a publication-search adapter call raises (network
error or timeout), `search_papers` substitutes its fixed mock paper set and
`identify_leads` completes without propagating any exception, for any inputs.
(A non-200 response is not an exception: the counterexample shows it yields
`None` and a propagating `TypeError` instead.) -/
theorem adapter_exception_fallback (profiles : List Profile) (keywords : List String)
    (attendees : String → List Attendee) (cap : Nat) :
    PubMedSearcher.search_papers .exception = some PubMedSearcher.mock_papers ∧
    ∃ out, IdentificationEngine.identify_leads profiles keywords .exception attendees cap
      = .ok out := by
  refine ⟨rfl, ?_⟩
  unfold IdentificationEngine.identify_leads
  by_cases hk : keywords.isEmpty <;>
    simp [hk, Bind.bind, Except.bind, pure, Except.pure, PubMedSearcher.search_papers,
      PubMedSearcher.extract_authors_from_papers]

/-! ### C9: per-candidate failure isolation in batch enrichment -/

/-- Sequencing sub-enrichers splits at the first failing step: the steps
before it all apply, the steps after it never run. -/
theorem runSteps_append (fs gs : List EnrichmentEngine.Step) (lead : Lead) :
    EnrichmentEngine.runSteps (fs ++ gs) lead =
      match EnrichmentEngine.runSteps fs lead with
      | (lead1, none) => EnrichmentEngine.runSteps gs lead1
      | (lead1, some e) => (lead1, some e) := by
  induction fs generalizing lead with
  | nil => rfl
  | cons f fs ih =>
    simp only [List.cons_append, EnrichmentEngine.runSteps]
    cases f lead with
    | ok lead1 => exact ih lead1
    | error e => rfl

/-- **C9.** If one sub-enricher raises for the candidate at position `i`
while the sub-enrichers before it succeeded, `enrich_leads` still returns a
batch of the same length (no exception propagates: the function is total), the
candidate at position `i` is retained exactly in the state the earlier
sub-enrichers left it in, and every other candidate is enriched by the full
step sequence as usual. -/
theorem enrich_leads_failure_isolation
    (pre post : List EnrichmentEngine.Step) (f : EnrichmentEngine.Step)
    (leads : List Lead) (i : Nat) (hi : i < leads.length) (lead1 : Lead) (e : String)
    (hpre : EnrichmentEngine.runSteps pre (leads.get ⟨i, hi⟩) = (lead1, none))
    (hf : f lead1 = .error e) :
    (EnrichmentEngine.enrich_leads_with (pre ++ f :: post) leads).length = leads.length ∧
    (EnrichmentEngine.enrich_leads_with (pre ++ f :: post) leads)[i]? = some lead1 ∧
    (∀ j (hj : j < leads.length), j ≠ i →
      (EnrichmentEngine.enrich_leads_with (pre ++ f :: post) leads)[j]?
        = some (EnrichmentEngine.runSteps (pre ++ f :: post) (leads.get ⟨j, hj⟩)).1) := by
  refine ⟨by simp [EnrichmentEngine.enrich_leads_with], ?_, ?_⟩
  · have hrun : (EnrichmentEngine.runSteps (pre ++ f :: post) (leads.get ⟨i, hi⟩)).1
        = lead1 := by
      rw [runSteps_append, hpre]
      simp only [EnrichmentEngine.runSteps, hf]
    simp only [EnrichmentEngine.enrich_leads_with, EnrichmentEngine.enrich_lead_with,
      List.getElem?_map]
    rw [List.getElem?_eq_getElem hi]
    simp [List.get_eq_getElem] at hrun
    simp [hrun]
  · intro j hj hne
    simp only [EnrichmentEngine.enrich_leads_with, EnrichmentEngine.enrich_lead_with,
      List.getElem?_map]
    rw [List.getElem?_eq_getElem hj]
    simp [List.get_eq_getElem]

/-- Witness for C9: in a two-candidate batch, a raising funding sub-enricher
leaves the first candidate with its email and headquarters already set, while
the second candidate is enriched by the surviving steps. -/
theorem enrich_leads_failure_isolation_witness :
    (EnrichmentEngine.enrich_leads_with (preSteps ++ failingFundingStep :: postSteps)
      [rawSarah, rawChen]).length = ([rawSarah, rawChen] : List Lead).length ∧
    (EnrichmentEngine.enrich_leads_with (preSteps ++ failingFundingStep :: postSteps)
      [rawSarah, rawChen])[0]? = some sarahAfterPre ∧
    (∀ j (hj : j < ([rawSarah, rawChen] : List Lead).length), j ≠ 0 →
      (EnrichmentEngine.enrich_leads_with (preSteps ++ failingFundingStep :: postSteps)
        [rawSarah, rawChen])[j]?
        = some (EnrichmentEngine.runSteps (preSteps ++ failingFundingStep :: postSteps)
            (([rawSarah, rawChen] : List Lead).get ⟨j, hj⟩)).1) :=
  enrich_leads_failure_isolation preSteps postSteps failingFundingStep
    [rawSarah, rawChen] 0 (by decide) sarahAfterPre "Crunchbase timeout" (by rfl) (by rfl)

/-! ### The identification dictionary invariant (C2, C5)

Throughout `identify_leads`, every entry's key is `name + "_" + company` of
its lead (with the original casing), keys are pairwise distinct, and no entry
has the `technographic_signals` or `funding_info` attributes set (both are
only created by enrichment). -/

theorem append_underscore_unknown (s : String) :
    s ++ "_Unknown" = s ++ "_" ++ "Unknown" := by
  cases s with
  | mk data =>
    show String.mk (data ++ "_Unknown".data)
      = String.mk ((data ++ "_".data) ++ "Unknown".data)
    rw [List.append_assoc]
    have h2 : "_".data ++ "Unknown".data = "_Unknown".data := by decide
    rw [h2]

theorem dictInsert_inv (d : IdentificationEngine.LeadsDict) (key : String) (v : Lead)
    (hent : ∀ e ∈ d, e.1 = e.2.name ++ "_" ++ e.2.company ∧
      e.2.technographic_signals = none ∧ e.2.funding_info = none)
    (hkeys : (d.map Prod.fst).Nodup)
    (hv : key = v.name ++ "_" ++ v.company ∧
      v.technographic_signals = none ∧ v.funding_info = none) :
    (∀ e ∈ IdentificationEngine.dictInsert d key v,
      e.1 = e.2.name ++ "_" ++ e.2.company ∧
      e.2.technographic_signals = none ∧ e.2.funding_info = none) ∧
    ((IdentificationEngine.dictInsert d key v).map Prod.fst).Nodup := by
  unfold IdentificationEngine.dictInsert
  rcases hmem : d.any (fun e => e.1 == key) with _ | _
  · rw [if_neg (by simp)]
    refine ⟨?_, ?_⟩
    · intro e he
      rcases List.mem_append.mp he with h1 | h2
      · exact hent e h1
      · have he2 : e = (key, v) := by simpa using h2
        rw [he2]
        exact hv
    · rw [List.map_append]
      have hnot : key ∉ d.map Prod.fst := by
        intro hk
        obtain ⟨e, he, hee⟩ := List.mem_map.mp hk
        have htrue : d.any (fun e => e.1 == key) = true :=
          List.any_eq_true.mpr ⟨e, he, by simp [hee]⟩
        rw [htrue] at hmem
        simp at hmem
      simp only [List.map_cons, List.map_nil]
      exact List.Nodup.append hkeys (List.nodup_singleton key)
        (by simpa [List.disjoint_singleton] using hnot)
  · rw [if_pos rfl]
    refine ⟨?_, ?_⟩
    · intro e he
      obtain ⟨e0, he0, hee⟩ := List.mem_map.mp he
      by_cases hk : (e0.1 == key) = true
      · rw [if_pos hk] at hee
        rw [← hee]
        have hkey : e0.1 = key := by simpa using hk
        exact ⟨hkey ▸ hv.1, hv.2.1, hv.2.2⟩
      · rw [if_neg hk] at hee
        rw [← hee]
        exact hent e0 he0
    · have hmap : (d.map (fun e => if e.1 == key then (e.1, v) else e)).map Prod.fst
          = d.map Prod.fst := by
        rw [List.map_map]
        apply List.map_congr_left
        intro e _
        show (if (e.1 == key) = true then (e.1, v) else e).1 = e.1
        by_cases hk : (e.1 == key) = true
        · rw [if_pos hk]
        · rw [if_neg hk]
      rw [hmap]
      exact hkeys

theorem appendPaper_keys_entries (an : String) (pub : PubRecord) :
    ∀ d : IdentificationEngine.LeadsDict,
      (IdentificationEngine.appendPaperFirstMatch an pub d).1.map Prod.fst
        = d.map Prod.fst ∧
      (∀ e ∈ (IdentificationEngine.appendPaperFirstMatch an pub d).1, ∃ e0 ∈ d,
        e.1 = e0.1 ∧ e.2.name = e0.2.name ∧ e.2.company = e0.2.company ∧
        e.2.technographic_signals = e0.2.technographic_signals ∧
        e.2.funding_info = e0.2.funding_info) := by
  intro d
  induction d with
  | nil =>
    refine ⟨rfl, ?_⟩
    intro e he
    simp [IdentificationEngine.appendPaperFirstMatch] at he
  | cons hd tl ih =>
    obtain ⟨hk, he⟩ := ih
    by_cases hm : IdentificationEngine.matchesAuthor an hd.2
    · refine ⟨?_, ?_⟩
      · simp [IdentificationEngine.appendPaperFirstMatch, hm]
      · intro e hee
        simp only [IdentificationEngine.appendPaperFirstMatch, hm, if_true] at hee
        rcases List.mem_cons.mp hee with h1 | h2
        · exact ⟨hd, List.mem_cons_self hd tl, by rw [h1], by rw [h1], by rw [h1],
            by rw [h1], by rw [h1]⟩
        · exact ⟨e, List.mem_cons_of_mem hd h2, rfl, rfl, rfl, rfl, rfl⟩
    · refine ⟨?_, ?_⟩
      · simpa [IdentificationEngine.appendPaperFirstMatch, hm] using hk
      · intro e hee
        simp only [IdentificationEngine.appendPaperFirstMatch, hm, if_false] at hee
        rcases List.mem_cons.mp hee with h1 | h2
        · exact ⟨hd, List.mem_cons_self hd tl, by rw [h1], by rw [h1], by rw [h1],
            by rw [h1], by rw [h1]⟩
        · obtain ⟨e0, he0, hprops⟩ := he e h2
          exact ⟨e0, List.mem_cons_of_mem hd he0, hprops⟩

theorem processAuthor_inv (d : IdentificationEngine.LeadsDict) (a : AuthorRec)
    (hent : ∀ e ∈ d, e.1 = e.2.name ++ "_" ++ e.2.company ∧
      e.2.technographic_signals = none ∧ e.2.funding_info = none)
    (hkeys : (d.map Prod.fst).Nodup) :
    (∀ e ∈ IdentificationEngine.processAuthor d a,
      e.1 = e.2.name ++ "_" ++ e.2.company ∧
      e.2.technographic_signals = none ∧ e.2.funding_info = none) ∧
    ((IdentificationEngine.processAuthor d a).map Prod.fst).Nodup := by
  obtain ⟨hk, he⟩ :=
    appendPaper_keys_entries a.name (IdentificationEngine.authorPub a) d
  have hent1 : ∀ e ∈ (IdentificationEngine.appendPaperFirstMatch a.name
      (IdentificationEngine.authorPub a) d).1,
      e.1 = e.2.name ++ "_" ++ e.2.company ∧
      e.2.technographic_signals = none ∧ e.2.funding_info = none := by
    intro e hee
    obtain ⟨e0, he0, h1, h2, h3, h4, h5⟩ := he e hee
    obtain ⟨g1, g2, g3⟩ := hent e0 he0
    refine ⟨?_, ?_, ?_⟩
    · rw [h1, h2, h3]; exact g1
    · rw [h4]; exact g2
    · rw [h5]; exact g3
  have hkeys1 : ((IdentificationEngine.appendPaperFirstMatch a.name
      (IdentificationEngine.authorPub a) d).1.map Prod.fst).Nodup := by
    rw [hk]
    exact hkeys
  unfold IdentificationEngine.processAuthor
  dsimp only
  rcases hm : (IdentificationEngine.appendPaperFirstMatch a.name
      (IdentificationEngine.authorPub a) d).2 with _ | _
  · rw [if_neg (by simp)]
    exact dictInsert_inv _ _ _ hent1 hkeys1
      ⟨append_underscore_unknown a.name, rfl, rfl⟩
  · rw [if_pos rfl]
    exact ⟨hent1, hkeys1⟩

theorem addAttendee_inv (conf : String) (d : IdentificationEngine.LeadsDict) (att : Attendee)
    (hent : ∀ e ∈ d, e.1 = e.2.name ++ "_" ++ e.2.company ∧
      e.2.technographic_signals = none ∧ e.2.funding_info = none)
    (hkeys : (d.map Prod.fst).Nodup) :
    (∀ e ∈ IdentificationEngine.addAttendee conf d att,
      e.1 = e.2.name ++ "_" ++ e.2.company ∧
      e.2.technographic_signals = none ∧ e.2.funding_info = none) ∧
    ((IdentificationEngine.addAttendee conf d att).map Prod.fst).Nodup := by
  unfold IdentificationEngine.addAttendee
  dsimp only
  rcases hmem : d.any (fun e => e.1 == att.name ++ "_" ++ att.company) with _ | _
  · rw [if_neg (by simp)]
    refine ⟨?_, ?_⟩
    · intro e he
      rcases List.mem_append.mp he with h1 | h2
      · exact hent e h1
      · have he2 : e = (att.name ++ "_" ++ att.company,
            IdentificationEngine.attendeeLead att conf) := by simpa using h2
        rw [he2]
        exact ⟨rfl, rfl, rfl⟩
    · rw [List.map_append]
      have hnot : att.name ++ "_" ++ att.company ∉ d.map Prod.fst := by
        intro hk
        obtain ⟨e, he, hee⟩ := List.mem_map.mp hk
        have htrue : d.any (fun e => e.1 == att.name ++ "_" ++ att.company) = true :=
          List.any_eq_true.mpr ⟨e, he, by simp [hee]⟩
        rw [htrue] at hmem
        simp at hmem
      simp only [List.map_cons, List.map_nil]
      exact List.Nodup.append hkeys (List.nodup_singleton _)
        (by simpa [List.disjoint_singleton] using hnot)
  · rw [if_pos rfl]
    refine ⟨?_, ?_⟩
    · intro e he
      obtain ⟨e0, he0, hee⟩ := List.mem_map.mp he
      by_cases hkcond : (e0.1 == att.name ++ "_" ++ att.company) = true
      · rw [if_pos hkcond] at hee
        obtain ⟨g1, g2, g3⟩ := hent e0 he0
        rw [← hee]
        exact ⟨g1, g2, g3⟩
      · rw [if_neg hkcond] at hee
        rw [← hee]
        exact hent e0 he0
    · have hmap : (d.map (fun e =>
          if e.1 == att.name ++ "_" ++ att.company then
            (e.1, { e.2 with conference_attendance := e.2.conference_attendance ++ [conf] })
          else e)).map Prod.fst = d.map Prod.fst := by
        rw [List.map_map]
        apply List.map_congr_left
        intro e _
        show (if (e.1 == att.name ++ "_" ++ att.company) = true then
          (e.1, { e.2 with conference_attendance := e.2.conference_attendance ++ [conf] })
          else e).1 = e.1
        by_cases hkcond : (e.1 == att.name ++ "_" ++ att.company) = true
        · rw [if_pos hkcond]
        · rw [if_neg hkcond]
      rw [hmap]
      exact hkeys

theorem foldl_dict_inv {α : Type} (P : IdentificationEngine.LeadsDict → Prop)
    (step : IdentificationEngine.LeadsDict → α → IdentificationEngine.LeadsDict)
    (hstep : ∀ d x, P d → P (step d x)) :
    ∀ (xs : List α) (d : IdentificationEngine.LeadsDict), P d → P (xs.foldl step d) := by
  intro xs
  induction xs with
  | nil => intro d hd; exact hd
  | cons x xs ih =>
    intro d hd
    rw [List.foldl_cons]
    exact ih (step d x) (hstep d x hd)

/-- Whenever `identify_leads` succeeds, its output is the (truncated) value
list of a dictionary satisfying the identification invariant. -/
theorem identify_leads_dict_inv (profiles : List Profile) (keywords : List String)
    (outcome : PubMedSearcher.HttpOutcome) (attendees : String → List Attendee)
    (cap : Nat) (out : List Lead)
    (h : IdentificationEngine.identify_leads profiles keywords outcome attendees cap
      = .ok out) :
    ∃ d2 : IdentificationEngine.LeadsDict,
      out = (d2.map Prod.snd).take cap ∧
      (∀ e ∈ d2, e.1 = e.2.name ++ "_" ++ e.2.company ∧
        e.2.technographic_signals = none ∧ e.2.funding_info = none) ∧
      (d2.map Prod.fst).Nodup := by
  have hd0 := foldl_dict_inv
    (fun d => (∀ e ∈ d, e.1 = e.2.name ++ "_" ++ e.2.company ∧
      e.2.technographic_signals = none ∧ e.2.funding_info = none) ∧
      (d.map Prod.fst).Nodup)
    IdentificationEngine.addProfile
    (fun d p hinv => dictInsert_inv d _ _ hinv.1 hinv.2 ⟨rfl, rfl, rfl⟩)
    profiles [] ⟨by intro e he; simp at he, List.nodup_nil⟩
  have hstepA := foldl_dict_inv
    (fun d => (∀ e ∈ d, e.1 = e.2.name ++ "_" ++ e.2.company ∧
      e.2.technographic_signals = none ∧ e.2.funding_info = none) ∧
      (d.map Prod.fst).Nodup)
    IdentificationEngine.processAuthor
    (fun d a hinv => processAuthor_inv d a hinv.1 hinv.2)
  have hconf := foldl_dict_inv
    (fun d => (∀ e ∈ d, e.1 = e.2.name ++ "_" ++ e.2.company ∧
      e.2.technographic_signals = none ∧ e.2.funding_info = none) ∧
      (d.map Prod.fst).Nodup)
    (fun d conf => (attendees conf).foldl (IdentificationEngine.addAttendee conf) d)
    (fun d conf hinv => foldl_dict_inv
      (fun d => (∀ e ∈ d, e.1 = e.2.name ++ "_" ++ e.2.company ∧
        e.2.technographic_signals = none ∧ e.2.funding_info = none) ∧
        (d.map Prod.fst).Nodup)
      (IdentificationEngine.addAttendee conf)
      (fun d att hinv => addAttendee_inv conf d att hinv.1 hinv.2) (attendees conf) d hinv)
    IdentificationEngine.conference_names
  unfold IdentificationEngine.identify_leads at h
  rcases hk : keywords.isEmpty with _ | _ <;> rw [hk] at h
  · rw [if_neg (by simp)] at h
    dsimp only at h
    rcases he : PubMedSearcher.extract_authors_from_papers
        (PubMedSearcher.search_papers outcome) with e | authors <;> rw [he] at h
    · simp [Bind.bind, Except.bind] at h
    · simp only [Bind.bind, Except.bind, pure, Except.pure, Except.ok.injEq] at h
      exact ⟨_, h.symm, (hconf _ (hstepA authors _ hd0)).1, (hconf _ (hstepA authors _ hd0)).2⟩
  · rw [if_pos rfl] at h
    simp only [Bind.bind, Except.bind, pure, Except.pure, Except.ok.injEq] at h
    exact ⟨_, h.symm, (hconf _ hd0).1, (hconf _ hd0).2⟩

/-! ### C5: scoring an identification-only lead raises AttributeError -/

/-- **C5.** Every lead produced by `identify_leads` alone still lacks the
`technographic_signals` attribute (only `enrich_lead` creates it), so
`calculate_score` fails with `AttributeError` on every such lead instead of
returning a score: scoring presupposes that enrichment has run. -/
theorem unenriched_lead_scoring_raises (profiles : List Profile) (keywords : List String)
    (outcome : PubMedSearcher.HttpOutcome) (attendees : String → List Attendee)
    (cap : Nat) (out : List Lead)
    (h : IdentificationEngine.identify_leads profiles keywords outcome attendees cap
      = .ok out)
    (lead : Lead) (hmem : lead ∈ out) :
    RankingEngine.calculate_score RankingEngine.defaultWeights lead
      = .error "AttributeError: 'Lead' object has no attribute 'technographic_signals'" := by
  obtain ⟨d2, hout, hent, -⟩ := identify_leads_dict_inv profiles keywords outcome
    attendees cap out h
  rw [hout] at hmem
  have hmem2 : lead ∈ d2.map Prod.snd := List.take_subset cap _ hmem
  obtain ⟨e, he, hee⟩ := List.mem_map.mp hmem2
  obtain ⟨-, htech, hfund⟩ := hent e he
  rw [← hee]
  unfold RankingEngine.calculate_score
  rw [hfund, htech]
  rfl

/-- Witness for C5: the lead identified from the mock Sarah Johnson profile
cannot be scored before enrichment. -/
theorem unenriched_lead_scoring_raises_witness :
    RankingEngine.calculate_score RankingEngine.defaultWeights caseProfileLead
      = .error "AttributeError: 'Lead' object has no attribute 'technographic_signals'" :=
  unenriched_lead_scoring_raises [caseProfile] [] (.response 200 []) emptyAttendees 500
    [caseProfileLead] (by rfl) caseProfileLead (by decide)

/-! ### C2, amended: the identity key is unique case-SENSITIVELY -/

/-- **C2, amended.** The dedup key of `identify_leads` is
`name + "_" + organization` with the original casing, and matching is
case-sensitive: records merge only when name and organization are equal
byte-for-byte. Consequently the identity key is unique across the candidate
set only case-sensitively (the counterexample shows two candidates differing
only in case surviving side by side). -/
theorem identity_key_unique_case_sensitive (profiles : List Profile)
    (keywords : List String) (outcome : PubMedSearcher.HttpOutcome)
    (attendees : String → List Attendee) (cap : Nat) (out : List Lead)
    (h : IdentificationEngine.identify_leads profiles keywords outcome attendees cap
      = .ok out) :
    out.Pairwise (fun l1 l2 => ¬(l1.name = l2.name ∧ l1.company = l2.company)) := by
  obtain ⟨d2, hout, hent, hkeys⟩ := identify_leads_dict_inv profiles keywords outcome
    attendees cap out h
  have hmapeq : d2.map Prod.fst
      = (d2.map Prod.snd).map (fun l => l.name ++ "_" ++ l.company) := by
    rw [List.map_map]
    apply List.map_congr_left
    intro e he
    exact (hent e he).1
  rw [hmapeq] at hkeys
  have hpair : (d2.map Prod.snd).Pairwise
      (fun l1 l2 => l1.name ++ "_" ++ l1.company ≠ l2.name ++ "_" ++ l2.company) :=
    (List.pairwise_map).mp hkeys
  have hpair2 : (d2.map Prod.snd).Pairwise
      (fun l1 l2 => ¬(l1.name = l2.name ∧ l1.company = l2.company)) := by
    apply hpair.imp
    intro a b hne hand
    exact hne (by rw [hand.1, hand.2])
  rw [hout]
  exact hpair2.sublist (List.take_sublist cap _)

/-- Witness for C2: the uniqueness theorem applied to the mixed-case run used
by the counterexample — the two surviving candidates differ in their exact
name and organization strings. -/
theorem identity_key_unique_witness :
    ([caseProfileLead, caseAttendeeLead] : List Lead).Pairwise
      (fun l1 l2 => ¬(l1.name = l2.name ∧ l1.company = l2.company)) :=
  identity_key_unique_case_sensitive [caseProfile] [] (.response 200 []) caseAttendees 500
    [caseProfileLead, caseAttendeeLead] (by rfl)

/-! ### C7: publication authors merge into the first matching candidate -/

theorem string_data_append (s t : String) : (s ++ t).data = s.data ++ t.data := by
  cases s
  cases t
  rfl

theorem startsWithChars_iff : ∀ (p h : List Char), startsWithChars p h = true ↔ p <+: h := by
  intro p
  induction p with
  | nil =>
    intro h
    simp [startsWithChars, List.nil_prefix]
  | cons c cs ih =>
    intro h
    cases h with
    | nil =>
      simp [startsWithChars]
    | cons x xs =>
      simp only [startsWithChars, Bool.and_eq_true, beq_iff_eq, ih xs,
        List.cons_prefix_cons]

theorem containsChars_iff : ∀ (p h : List Char), containsChars p h = true ↔ p <:+: h := by
  intro p h
  induction h with
  | nil =>
    simp [containsChars, List.isEmpty_iff, List.infix_nil]
  | cons x xs ih =>
    simp only [containsChars, Bool.or_eq_true, startsWithChars_iff, ih,
      List.infix_cons_iff]

theorem pyIn_iff_substring (n hay : String) : pyIn n hay = true ↔ n.data <:+: hay.data :=
  containsChars_iff n.data hay.data

/-- If a candidate's dictionary key (its `name + "_" + company`) coincides
with an author's pubmed key `author + "_Unknown"`, then the author matches the
candidate: one of the two names is a prefix, hence a case-insensitive
substring, of the other. -/
theorem key_eq_implies_matches (l : Lead) (an : String)
    (h : l.name ++ "_" ++ l.company = an ++ "_Unknown") :
    IdentificationEngine.matchesAuthor an l = true := by
  have hdata : (l.name.data ++ "_".data) ++ l.company.data = an.data ++ "_Unknown".data := by
    have h2 := congrArg String.data h
    rw [string_data_append, string_data_append, string_data_append] at h2
    exact h2
  have hpre1 : l.name.data <+: (l.name.data ++ "_".data) ++ l.company.data := by
    rw [List.append_assoc]
    exact List.prefix_append _ _
  have hpre2 : an.data <+: (l.name.data ++ "_".data) ++ l.company.data := by
    rw [hdata]
    exact List.prefix_append _ _
  rcases List.prefix_or_prefix_of_prefix hpre1 hpre2 with hp | hp
  · have hinf : (pyLower l.name).data <:+: (pyLower an).data := by
      show l.name.data.map Char.toLower <:+: an.data.map Char.toLower
      exact (hp.map Char.toLower).isInfix
    have hc : pyIn (pyLower l.name) (pyLower an) = true := (pyIn_iff_substring _ _).mpr hinf
    unfold IdentificationEngine.matchesAuthor
    rw [hc]
    simp
  · have hinf : (pyLower an).data <:+: (pyLower l.name).data := by
      show an.data.map Char.toLower <:+: l.name.data.map Char.toLower
      exact (hp.map Char.toLower).isInfix
    have hc : pyIn (pyLower an) (pyLower l.name) = true := (pyIn_iff_substring _ _).mpr hinf
    unfold IdentificationEngine.matchesAuthor
    rw [hc]
    simp

theorem appendPaper_of_no_match (an : String) (pub : PubRecord) :
    ∀ d : IdentificationEngine.LeadsDict,
      (∀ e ∈ d, IdentificationEngine.matchesAuthor an e.2 = false) →
      IdentificationEngine.appendPaperFirstMatch an pub d = (d, false) := by
  intro d
  induction d with
  | nil => intro _; rfl
  | cons hd tl ih =>
    intro hall
    obtain ⟨k, ld⟩ := hd
    have hhd := hall (k, ld) (List.mem_cons_self _ tl)
    simp only [IdentificationEngine.appendPaperFirstMatch, hhd, if_false,
      Bool.false_eq_true]
    rw [ih (fun e he => hall e (List.mem_cons_of_mem _ he))]

theorem appendPaper_of_first_match (an : String) (pub : PubRecord) :
    ∀ (d : IdentificationEngine.LeadsDict) (i : Nat),
      d.findIdx? (fun e => IdentificationEngine.matchesAuthor an e.2) = some i →
      IdentificationEngine.appendPaperFirstMatch an pub d =
        (d.modify (fun e =>
          (e.1, { e.2 with pubmed_papers := e.2.pubmed_papers ++ [pub] })) i, true) := by
  intro d
  induction d with
  | nil =>
    intro i h
    simp at h
  | cons hd tl ih =>
    intro i h
    rw [List.findIdx?_cons] at h
    by_cases hm : IdentificationEngine.matchesAuthor an hd.2
    · rw [if_pos hm] at h
      have hi : i = 0 := by
        have := Option.some.inj h
        omega
      subst hi
      obtain ⟨k, ld⟩ := hd
      simp only [IdentificationEngine.appendPaperFirstMatch] at hm ⊢
      rw [if_pos hm]
      simp [List.modify]
    · rw [if_neg hm] at h
      rw [List.findIdx?_succ] at h
      obtain ⟨i1, hi1, rfl⟩ := Option.map_eq_some'.mp h
      obtain ⟨k, ld⟩ := hd
      simp only [IdentificationEngine.appendPaperFirstMatch] at hm ⊢
      rw [if_neg hm, ih i1 hi1]
      simp [List.modify]

/-- **C7.** For every author record, the step-2 merge loop of `identify_leads`
scans the candidate dictionary in insertion order: if some candidate matches
the author (case-insensitive bidirectional substring containment of the
names), the publication is appended to the FIRST such candidate's evidence and
nothing else changes; if none matches, a new candidate is appended with title
"Researcher", organization "Unknown", empty location, and exactly that one
publication (the dictionary keys being `name + "_" + company` ensures the new
key `author + "_Unknown"` is fresh, so the dict assignment is an append). -/
theorem process_author_first_match_or_new
    (d : IdentificationEngine.LeadsDict) (a : AuthorRec)
    (hkeys : ∀ e ∈ d, e.1 = e.2.name ++ "_" ++ e.2.company) :
    (∀ i, d.findIdx? (fun e => IdentificationEngine.matchesAuthor a.name e.2) = some i →
      IdentificationEngine.processAuthor d a =
        d.modify (fun e =>
          (e.1, { e.2 with pubmed_papers := e.2.pubmed_papers
            ++ [IdentificationEngine.authorPub a] })) i) ∧
    ((∀ e ∈ d, IdentificationEngine.matchesAuthor a.name e.2 = false) →
      IdentificationEngine.processAuthor d a
        = d ++ [(a.name ++ "_Unknown", IdentificationEngine.researcherLead a)]) := by
  constructor
  · intro i hfind
    unfold IdentificationEngine.processAuthor
    rw [appendPaper_of_first_match a.name (IdentificationEngine.authorPub a) d i hfind]
    rfl
  · intro hnone
    unfold IdentificationEngine.processAuthor
    rw [appendPaper_of_no_match a.name (IdentificationEngine.authorPub a) d hnone]
    have hany : d.any (fun e => e.1 == a.name ++ "_Unknown") = false := by
      rw [List.any_eq_false]
      intro e he
      simp only [beq_iff_eq]
      intro heq
      have hm := key_eq_implies_matches e.2 a.name (by rw [← hkeys e he, heq])
      rw [hnone e he] at hm
      simp at hm
    show IdentificationEngine.dictInsert d (a.name ++ "_Unknown")
      (IdentificationEngine.researcherLead a) = _
    unfold IdentificationEngine.dictInsert
    rw [hany]
    rw [if_neg (by simp)]

/-- Witness for C7: a matching author appends its publication to the one
matching candidate. -/
theorem process_author_witness :
    IdentificationEngine.processAuthor
      [("Dr. Sarah Johnson_Pfizer Inc", caseProfileLead)]
      (⟨"Dr. Sarah Johnson", some "DILI paper", some 2024, some "99"⟩ : AuthorRec) =
    ([("Dr. Sarah Johnson_Pfizer Inc", caseProfileLead)].modify (fun e =>
      (e.1, { e.2 with pubmed_papers := e.2.pubmed_papers
        ++ [IdentificationEngine.authorPub
             (⟨"Dr. Sarah Johnson", some "DILI paper", some 2024, some "99"⟩ : AuthorRec)] }))
      0) :=
  (process_author_first_match_or_new
    [("Dr. Sarah Johnson_Pfizer Inc", caseProfileLead)]
    (⟨"Dr. Sarah Johnson", some "DILI paper", some 2024, some "99"⟩ : AuthorRec)
    (by decide)).1 0 (by decide)

/-! ### C8: ranking sorts stably by descending score and assigns 1-based ranks -/

theorem leadLE_trans (a b c : Lead) :
    RankingEngine.leadLE a b = true → RankingEngine.leadLE b c = true →
    RankingEngine.leadLE a c = true := by
  simp only [RankingEngine.leadLE, decide_eq_true_eq]
  omega

theorem leadLE_total (a b : Lead) :
    (RankingEngine.leadLE a b || RankingEngine.leadLE b a) = true := by
  simp only [RankingEngine.leadLE, Bool.or_eq_true, decide_eq_true_eq]
  omega

theorem assign_ranks_strip (l : List Lead) :
    (RankingEngine.assign_ranks l).map stripRank = l.map stripRank := by
  unfold RankingEngine.assign_ranks
  rw [List.map_map]
  have hcomp : (stripRank ∘ fun p : Nat × Lead => { p.2 with rank := some ((p.1 : Int) + 1) })
      = stripRank ∘ Prod.snd := by
    funext p
    rfl
  rw [hcomp, ← List.map_map, List.enum_map_snd]

/-- Stability of the sort, key-class formulation: for every score value, the
subsequence of candidates carrying that score is unchanged by the sort. -/
theorem mergeSort_filter_score (l : List Lead) (s : Int) :
    (l.mergeSort RankingEngine.leadLE).filter (fun x => x.score == s)
      = l.filter (fun x => x.score == s) := by
  have hcpair : (l.filter (fun x => x.score == s)).Pairwise
      (fun a b => RankingEngine.leadLE a b = true) := by
    apply List.pairwise_of_forall_mem_list
    intro a ha b hb
    have ha3 : a.score = s := by simpa using (List.mem_filter.mp ha).2
    have hb3 : b.score = s := by simpa using (List.mem_filter.mp hb).2
    simp only [RankingEngine.leadLE, decide_eq_true_eq]
    omega
  have hsub : List.Sublist (l.filter (fun x => x.score == s))
      (l.mergeSort RankingEngine.leadLE) :=
    List.sublist_mergeSort leadLE_trans leadLE_total hcpair (List.filter_sublist l)
  have hcid : (l.filter (fun x => x.score == s)).filter (fun x => x.score == s)
      = l.filter (fun x => x.score == s) :=
    List.filter_eq_self.mpr (fun a ha => (List.mem_filter.mp ha).2)
  have hsub2 : List.Sublist (l.filter (fun x => x.score == s))
      ((l.mergeSort RankingEngine.leadLE).filter (fun x => x.score == s)) := by
    have h2 := List.Sublist.filter (fun x => x.score == s) hsub
    rwa [hcid] at h2
  have hperm : List.Perm
      ((l.mergeSort RankingEngine.leadLE).filter (fun x => x.score == s))
      (l.filter (fun x => x.score == s)) :=
    (List.mergeSort_perm l RankingEngine.leadLE).filter _
  exact (hsub2.eq_of_length hperm.length_eq.symm).symm

/-- `rank_leads` after a successful scoring pass: sort then assign ranks. -/
theorem rank_leads_eq (w : RankingEngine.ScoringWeights) (leads scored : List Lead)
    (hs : RankingEngine.score_all w leads = .ok scored) :
    RankingEngine.rank_leads w leads
      = .ok (RankingEngine.assign_ranks (scored.mergeSort RankingEngine.leadLE)) := by
  unfold RankingEngine.rank_leads
  rw [hs]
  rfl

/-- **C8.** `rank_leads` returns the scored candidates sorted in descending
order of score; the sort is stable (for each score value the subsequence of
candidates with that score keeps the scored input order — in particular,
scores [90, 90, 70] in order [A, B, C] stay [A, B, C], see the witness); and
the candidate at sorted position `i` receives rank `i + 1`. Comparisons
ignore the `rank` attribute that ranking itself writes (`stripRank`). -/
theorem rank_leads_sorted_stable_ranked (w : RankingEngine.ScoringWeights)
    (leads scored out : List Lead)
    (hs : RankingEngine.score_all w leads = .ok scored)
    (hr : RankingEngine.rank_leads w leads = .ok out) :
    out.Pairwise (fun a b => b.score ≤ a.score) ∧
    (out.map stripRank).Perm (scored.map stripRank) ∧
    (∀ s : Int, (out.map stripRank).filter (fun l => l.score == s)
      = (scored.map stripRank).filter (fun l => l.score == s)) ∧
    (∀ i (hi : i < out.length), (out.get ⟨i, hi⟩).rank = some ((i : Int) + 1)) := by
  have hout : out = RankingEngine.assign_ranks (scored.mergeSort RankingEngine.leadLE) := by
    have h2 := rank_leads_eq w leads scored hs
    rw [h2] at hr
    exact (Except.ok.inj hr).symm
  subst hout
  have hp : (scored.mergeSort RankingEngine.leadLE).Pairwise
      (fun a b => RankingEngine.leadLE a b = true) :=
    List.sorted_mergeSort leadLE_trans leadLE_total scored
  refine ⟨?_, ?_, ?_, ?_⟩
  · have hp2 : ((RankingEngine.assign_ranks
        (scored.mergeSort RankingEngine.leadLE)).map stripRank).Pairwise
        (fun a b => b.score ≤ a.score) := by
      rw [assign_ranks_strip, List.pairwise_map]
      apply hp.imp
      intro a b hab
      simpa [RankingEngine.leadLE] using hab
    have hp3 := (List.pairwise_map).mp hp2
    exact hp3.imp (fun hab => hab)
  · rw [assign_ranks_strip]
    exact (List.mergeSort_perm scored RankingEngine.leadLE).map stripRank
  · intro s
    rw [assign_ranks_strip, List.filter_map, List.filter_map]
    have hps : ((fun l : Lead => l.score == s) ∘ stripRank) = fun l : Lead => l.score == s := by
      funext l
      rfl
    rw [hps, mergeSort_filter_score]
  · intro i hi
    unfold RankingEngine.assign_ranks at hi ⊢
    simp only [List.get_eq_getElem, List.getElem_map, List.getElem_enum]

/-- Witness for C8: candidates with scores [90, 90, 70] in input order
[A, B, C] come out in the same order, sorted descending, with ranks
[1, 2, 3]. -/
theorem rank_leads_sorted_stable_ranked_witness :
    ∃ out, RankingEngine.rank_leads RankingEngine.defaultWeights rankInput = .ok out ∧
      out.Pairwise (fun a b => b.score ≤ a.score) ∧
      (∀ i (hi : i < out.length), (out.get ⟨i, hi⟩).rank = some ((i : Int) + 1)) := by
  have hs : RankingEngine.score_all RankingEngine.defaultWeights rankInput
      = .ok rankScored := by rfl
  have hsorted : rankScored.Pairwise (fun a b => RankingEngine.leadLE a b = true) := by
    decide
  have hms : rankScored.mergeSort RankingEngine.leadLE = rankScored :=
    List.mergeSort_of_sorted hsorted
  have hr : RankingEngine.rank_leads RankingEngine.defaultWeights rankInput
      = .ok (RankingEngine.assign_ranks rankScored) := by
    rw [rank_leads_eq RankingEngine.defaultWeights rankInput rankScored hs, hms]
  obtain ⟨h1, h2, h3, h4⟩ := rank_leads_sorted_stable_ranked RankingEngine.defaultWeights
    rankInput rankScored (RankingEngine.assign_ranks rankScored) hs hr
  exact ⟨RankingEngine.assign_ranks rankScored, hr, h1, h4⟩
